import Mathlib

/-!
Verification of the flight booking manager (`mthree_1.py`).

The Python source is shallowly embedded: classes become structures or
inductives, mutation becomes explicit state passing, raised exceptions
become `Except` errors, and the lazy seat generator becomes the finite
list it yields.  Strings are modelled over ASCII characters (all data in
the program is ASCII); Python `str.isalpha`, `str.isupper`, `str.isdigit`
and `int(...)` are modelled on that ASCII fragment.
-/

namespace FlightBooking

/-- ASCII model of Python `str.isalpha` on a list of characters:
nonempty and every character a letter. -/
def pyIsAlpha (s : List Char) : Bool :=
  !s.isEmpty && s.all Char.isAlpha

/-- ASCII model of Python `str.isupper`: at least one cased character and
every cased character uppercase (in ASCII the cased characters are
exactly the letters). -/
def pyIsUpper (s : List Char) : Bool :=
  s.any Char.isAlpha && s.all (fun c => !c.isAlpha || c.isUpper)

/-- ASCII model of Python `str.isdigit`: nonempty and every character a
decimal digit. -/
def pyIsDigit (s : List Char) : Bool :=
  !s.isEmpty && s.all Char.isDigit

/-- Numeric value of a string of decimal digits, as computed by Python
`int` on a string that passed `isdigit`. -/
def digitsVal (s : List Char) : Nat :=
  s.foldl (fun acc c => 10 * acc + (c.toNat - 48)) 0

/-- The ASCII whitespace characters stripped by Python `int(...)`. -/
def isPyWs (c : Char) : Bool :=
  c == ' ' || c == '\t' || c == '\n' || c == '\r' || c == '\x0b' || c == '\x0c'

/-- Strip leading and trailing whitespace, as Python `int(...)` does. -/
def pyStrip (s : List Char) : List Char :=
  ((s.dropWhile isPyWs).reverse.dropWhile isPyWs).reverse

/-- Accumulating scanner for the digit part of a Python integer literal:
digits, with single underscores allowed between digits.  `us` records
whether the previous character was an underscore. -/
def pyDigitsGo (acc : Nat) (us : Bool) : List Char → Option Nat
  | [] => if us then none else some acc
  | c :: rest =>
    if c.isDigit then pyDigitsGo (10 * acc + (c.toNat - 48)) false rest
    else if c == '_' && !us then pyDigitsGo acc true rest
    else none

/-- The unsigned digit part of a Python integer literal: nonempty, starts
with a digit, single underscores allowed between digits. -/
def pyUnsignedDigits : List Char → Option Nat
  | [] => none
  | c :: rest => if c.isDigit then pyDigitsGo (c.toNat - 48) false rest else none

/-- ASCII model of Python `int(str)`: optional surrounding whitespace,
optional single sign, then digits with optional single underscores
between digits.  Returns `none` where Python raises `ValueError`. -/
def pyInt (s : List Char) : Option Int :=
  match pyStrip s with
  | [] => none
  | c :: rest =>
    if c == '+' then (pyUnsignedDigits rest).map Int.ofNat
    else if c == '-' then (pyUnsignedDigits rest).map (fun n => -(Int.ofNat n))
    else (pyUnsignedDigits (c :: rest)).map Int.ofNat

/-- The two concrete aircraft models of the program (`AirbusA319` and
`Boeing777` subclasses of `Aircraft`), each carrying its registration. -/
inductive Aircraft
  | airbusA319 (registration : String)
  | boeing777 (registration : String)
deriving DecidableEq, Repr

/-- `Aircraft.registration`. -/
def Aircraft.registration : Aircraft → String
  | .airbusA319 r => r
  | .boeing777 r => r

/-- `seating_plan`: row numbers (`range(1, 23)` and `range(1, 56)`) and
seat letters (`"ABCDEF"` and `"ABCDEFGHJK"`) per model. -/
def Aircraft.seating_plan : Aircraft → List Nat × List Char
  | .airbusA319 _ => (List.range' 1 22, "ABCDEF".toList)
  | .boeing777 _ => (List.range' 1 55, "ABCDEFGHJK".toList)

/-- `model`: the human-readable model name per subclass. -/
def Aircraft.model : Aircraft → String
  | .airbusA319 _ => "Airbus A319"
  | .boeing777 _ => "Boeing 777"

/-- `avail_routes`: the static route dictionaries of the two subclasses,
as association lists in the literal order of the source. -/
def Aircraft.avail_routes : Aircraft → List (String × List String)
  | .airbusA319 _ =>
      [("EDB", ["LCY", "LGW", "LHR"]),
       ("LCY", ["ABZ", "GLA", "EDB"]),
       ("LGW", ["ABZ", "EDB", "GLA"]),
       ("LHR", ["ABZ", "EDB", "GLA"])]
  | .boeing777 _ =>
      [("EDB", ["LHR"]),
       ("LGW", ["BFS", "EDB", "GLA"]),
       ("LHR", ["BFS", "EDB", "GLA"])]

/-- `Aircraft.available_routes`, which just returns `avail_routes`. -/
def Aircraft.available_routes (a : Aircraft) : List (String × List String) :=
  a.avail_routes

/-- `Aircraft.num_seats`: rows times seats per row. -/
def Aircraft.num_seats (a : Aircraft) : Nat :=
  a.seating_plan.1.length * a.seating_plan.2.length

/-- Result of `Aircraft.flight_route`: the `(dept, dest)` tuple, or the
`-1` sentinel (`notFound`). -/
inductive RouteResult
  | found (dept dest : String)
  | notFound
deriving DecidableEq, Repr

/-- `Aircraft.flight_route`: `routes.get(dept)` must be present and
truthy (nonempty) and contain `dest`; otherwise the `-1` sentinel. -/
def Aircraft.flight_route (a : Aircraft) (dept dest : String) : RouteResult :=
  match a.available_routes.lookup dept with
  | some ds => if ds ≠ [] ∧ dest ∈ ds then .found dept dest else .notFound
  | none => .notFound

/-- The `ValueError`s raised by `Flight.__init__`, by source order. -/
inductive FormatError
  | noAirlineCode (number : String)
  | invalidAirlineCode (number : String)
  | invalidRouteNumber (number : String)
deriving DecidableEq, Repr

/-- A `Flight`: flight number, departure and destination codes, its
aircraft, and the seating grid.  The Python grid is a list of per-row
dicts keyed by the plan letters; it is modelled as a total function that
the operations only ever read and write inside the plan. -/
structure Flight where
  number : String
  dept : String
  dest : String
  aircraft : Aircraft
  seating : Nat → Char → Option String

/-- `Flight.__init__`: the three format checks on the flight number, in
source order (`number[:2].isalpha()`, `number[:2].isupper()`,
`number[2:].isdigit() and int(number[2:]) <= 9999`), then the grid with
every cell of the plan unoccupied. -/
def Flight.init (number dept dest : String) (aircraft : Aircraft) :
    Except FormatError Flight :=
  if ¬ pyIsAlpha (number.toList.take 2) then .error (.noAirlineCode number)
  else if ¬ pyIsUpper (number.toList.take 2) then .error (.invalidAirlineCode number)
  else if ¬ (pyIsDigit (number.toList.drop 2) ∧ digitsVal (number.toList.drop 2) ≤ 9999) then
    .error (.invalidRouteNumber number)
  else .ok { number := number, dept := dept, dest := dest, aircraft := aircraft,
             seating := fun _ _ => none }

/-- `Flight.aircraft_model`. -/
def Flight.aircraft_model (f : Flight) : String :=
  f.aircraft.model

/-- The errors raised by `Flight.allocate_seat`, by source order, plus
the `IndexError` Python raises for `seat[-1]` on an empty designator. -/
inductive SeatError
  | indexError
  | invalidSeatLetter (letter : Char)
  | invalidSeatRow (rowText : String)
  | rowOutOfRange (row : Int)
  | seatOccupied (seat : String)
deriving DecidableEq, Repr

/-- `Flight.allocate_seat`: take the trailing character (`seat[-1]`,
an `IndexError` on the empty string), check it against the plan letters,
parse the rest with `int(...)`, check the row against the plan rows,
check occupancy, then write the cell.  Mutation of `self._seating`
becomes returning the updated flight. -/
def Flight.allocate_seat (f : Flight) (seat : String) (passenger : String) :
    Except SeatError Flight :=
  let rows := f.aircraft.seating_plan.1
  let seat_letters := f.aircraft.seating_plan.2
  match seat.toList.getLast? with
  | none => .error .indexError
  | some letter =>
    if letter ∉ seat_letters then .error (.invalidSeatLetter letter)
    else
      match pyInt seat.toList.dropLast with
      | none => .error (.invalidSeatRow (String.mk seat.toList.dropLast))
      | some row =>
        if ∀ r ∈ rows, (r : Int) ≠ row then .error (.rowOutOfRange row)
        else if (f.seating row.toNat letter).isSome then .error (.seatOccupied seat)
        else .ok { f with
          seating := fun r l =>
            if r = row.toNat ∧ l = letter then some passenger else f.seating r l }

/-- `Flight.available_routes`: delegates to the aircraft. -/
def Flight.available_routes (f : Flight) : List (String × List String) :=
  f.aircraft.available_routes

/-- `Flight.flight_route`: delegates to the aircraft with the stored
departure and destination. -/
def Flight.flight_route (f : Flight) : RouteResult :=
  f.aircraft.flight_route f.dept f.dest

/-- `Flight.num_available_seats`: for each row of the grid, the number
of cells holding `None`, summed. -/
def Flight.num_available_seats (f : Flight) : Nat :=
  let rows := f.aircraft.seating_plan.1
  let seat_letters := f.aircraft.seating_plan.2
  (rows.map (fun row =>
    (seat_letters.filter (fun letter => (f.seating row letter).isNone)).length)).sum

/-- The seat designator string `"{row}{letter}"`. -/
def designator (row : Nat) (letter : Char) : String :=
  toString row ++ String.singleton letter

/-- `Flight._passenger_seats`: the pairs `(passenger, designator)` of the
occupied cells, rows ascending and letters in plan order. -/
def Flight.passenger_seats (f : Flight) : List (String × String) :=
  let row_numbers := f.aircraft.seating_plan.1
  let seat_letters := f.aircraft.seating_plan.2
  row_numbers.flatMap fun row =>
    seat_letters.filterMap fun letter =>
      match f.seating row letter with
      | some passenger => some (passenger, designator row letter)
      | none => none

/-- `Flight._seat_generator`: the finite sequence of designators of the
unoccupied cells, rows ascending and letters in plan order.  The Python
generator is lazy; its full (finite) yield is modelled. -/
def Flight.seat_generator (f : Flight) : List String :=
  let row_numbers := f.aircraft.seating_plan.1
  let seat_letters := f.aircraft.seating_plan.2
  row_numbers.flatMap fun row =>
    seat_letters.filterMap fun letter =>
      match f.seating row letter with
      | none => some (designator row letter)
      | some _ => none

/-- One boarding card: the six arguments `make_boarding_cards` passes to
the card printer, in order. -/
structure BoardingCard where
  passenger : String
  seat : String
  dept : String
  dest : String
  number : String
  model : String
deriving DecidableEq, Repr

/-- Python string comparison, strict: lexicographic on code points,
with a proper suffix remaining on the right meaning smaller. -/
def listLtB : List Char → List Char → Bool
  | [], [] => false
  | [], _ :: _ => true
  | _ :: _, [] => false
  | a :: as, b :: bs =>
    if a.toNat < b.toNat then true
    else if b.toNat < a.toNat then false
    else listLtB as bs

/-- Python string comparison, non-strict. -/
def listLeB : List Char → List Char → Bool
  | [], _ => true
  | _ :: _, [] => false
  | a :: as, b :: bs =>
    if a.toNat < b.toNat then true
    else if b.toNat < a.toNat then false
    else listLeB as bs

/-- Python `<` on strings (code-point lexicographic). -/
def strLtB (a b : String) : Bool := listLtB a.toList b.toList

/-- Python `<=` on strings (code-point lexicographic). -/
def strLeB (a b : String) : Bool := listLeB a.toList b.toList

/-- The order Python `sorted` uses on the `(passenger, seat)` tuples:
lexicographic on the tuple, strings compared by code point. -/
def pairLe (a b : String × String) : Prop :=
  (strLtB a.1 b.1 || (a.1 == b.1 && strLeB a.2 b.2)) = true

instance : DecidableRel pairLe := fun a b =>
  inferInstanceAs (Decidable ((strLtB a.1 b.1 || (a.1 == b.1 && strLeB a.2 b.2)) = true))

/-- `Flight.make_boarding_cards`: sort the occupied `(passenger, seat)`
pairs as Python `sorted` does and record one renderer invocation per
pair, with the six arguments of the source call.  The method never
writes the grid, so it is a pure function of the flight. -/
def Flight.make_boarding_cards (f : Flight) : List BoardingCard :=
  (f.passenger_seats.insertionSort pairLe).map fun ps =>
    { passenger := ps.1, seat := ps.2, dept := f.dept, dest := f.dest,
      number := f.number, model := f.aircraft_model }

/-- One parsed booking line, fields in source order:
`NAME,DEPARTURE CODE,DESTINATION CODE,FLIGHT NUMBER,AIRCRAFT TYPE,REGISTRATION`. -/
structure Booking where
  name : String
  dept : String
  dest : String
  number : String
  aircraft : String
  reg : String
deriving DecidableEq, Repr

/-- The operator-facing warnings `create_flight` prints, with the data
interpolated into the message. -/
inductive Report
  | noRoute (name number aircraft dept dest : String)
  | routeMismatch (name number dept dest : String)
deriving DecidableEq, Repr

/-- The exceptions `create_flight` lets escape unhandled: a
`ValueError` from `Flight.__init__`, a `StopIteration` from an exhausted
seat generator, a `ValueError` from `allocate_seat`, and the
`ValueError` raised by `existing_flights.index` on a missing number. -/
inductive ImportFault
  | formatError (e : FormatError)
  | stopIteration
  | seatError (e : SeatError)
  | indexNotInList (number : String)
deriving DecidableEq, Repr

/-- The new-flight arm of `create_flight`: test the route on
`test_craft`, and on success build the `Flight` on `craft`, take the
first yield of its seat generator and allocate it.  `reports` is what
the arm prints when the route test fails (the `AirbusA319` arm prints a
warning, the `Boeing777` arm prints nothing). -/
def try_new_flight (flights : List (Flight × String)) (b : Booking)
    (test_craft : Aircraft) (craft : Aircraft) (reports : List Report) :
    Except ImportFault (List (Flight × String) × List Report) :=
  if test_craft.flight_route b.dept b.dest ≠ .notFound then
    match Flight.init b.number b.dept b.dest craft with
    | .error e => .error (.formatError e)
    | .ok fl =>
      match fl.seat_generator with
      | [] => .error .stopIteration
      | seat :: _ =>
        match fl.allocate_seat seat b.name with
        | .error e => .error (.seatError e)
        | .ok fl2 => .ok (flights ++ [(fl2, b.number)], [])
  else .ok (flights, reports)

/-- The `else` arm of `create_flight`: `existing_flights.index(_number)`
(a `ValueError` when the number is absent, which is how a booking with
an unrecognized aircraft type and a fresh number ends up here), then the
route comparison against the existing flight, then the next seat from
the generator; in-place mutation of the found flight becomes rebuilding
the list around the updated flight. -/
def add_to_existing : List (Flight × String) → Booking →
    Except ImportFault (List (Flight × String) × List Report)
  | [], b => .error (.indexNotInList b.number)
  | (fl, num) :: rest, b =>
    if num = b.number then
      if fl.flight_route = .found b.dept b.dest then
        match fl.seat_generator with
        | [] => .error .stopIteration
        | seat :: _ =>
          match fl.allocate_seat seat b.name with
          | .error e => .error (.seatError e)
          | .ok fl2 => .ok ((fl2, num) :: rest, [])
      else .ok ((fl, num) :: rest, [.routeMismatch b.name b.number b.dept b.dest])
    else
      match add_to_existing rest b with
      | .error e => .error e
      | .ok (rest2, reports) => .ok ((fl, num) :: rest2, reports)

/-- One iteration of the booking loop of `create_flight`.  Both
new-flight arms pass an `AirbusA319` as the route-test craft, exactly as
the source does (`test_craft = AirbusA319(_reg)` in both branches). -/
def create_flight_step (flights : List (Flight × String)) (b : Booking) :
    Except ImportFault (List (Flight × String) × List Report) :=
  let existing_flights := flights.map (fun x => x.2)
  if b.number ∉ existing_flights ∧ b.aircraft = "AirbusA319" then
    try_new_flight flights b (.airbusA319 b.reg) (.airbusA319 b.reg)
      [.noRoute b.name b.number b.aircraft b.dept b.dest]
  else if b.number ∉ existing_flights ∧ b.aircraft = "Boeing777" then
    try_new_flight flights b (.airbusA319 b.reg) (.boeing777 b.reg) []
  else
    add_to_existing flights b

/-- The whole booking loop of `create_flight` over a list of parsed
booking lines (the file reading itself is I/O glue outside the model),
accumulating the printed reports. -/
def create_flight (bookings : List Booking) :
    Except ImportFault (List (Flight × String) × List Report) :=
  bookings.foldlM
    (fun st b =>
      match create_flight_step st.1 b with
      | .error e => .error e
      | .ok (fs, rs) => .ok (fs, st.2 ++ rs))
    (([], []) : List (Flight × String) × List Report)

/-- The cells of an aircraft's seating plan, row-major. -/
def planCells (a : Aircraft) : List (Nat × Char) :=
  a.seating_plan.1.flatMap fun row => a.seating_plan.2.map fun letter => (row, letter)

/-- The unoccupied cells of a flight's plan, row-major. -/
def Flight.freeCells (f : Flight) : List (Nat × Char) :=
  (planCells f.aircraft).filter fun c => (f.seating c.1 c.2).isNone

/-- Strict order on cells by row, then by the letter's index in the
plan's column order. -/
def cellLt (a : Aircraft) (c d : Nat × Char) : Prop :=
  c.1 < d.1 ∨ (c.1 = d.1 ∧ a.seating_plan.2.indexOf c.2 < a.seating_plan.2.indexOf d.2)

/-- The occupied cells of a flight's plan, row-major. -/
def Flight.occupiedCells (f : Flight) : List (Nat × Char) :=
  (planCells f.aircraft).filter fun c => (f.seating c.1 c.2).isSome

/-- A sequence of `allocate_seat` calls, stopping at the first error:
the state-passing form of performing the calls one after another on the
same flight object. -/
def Flight.allocate_all (f : Flight) : List (String × String) → Except SeatError Flight
  | [] => .ok f
  | (seat, passenger) :: rest =>
    match f.allocate_seat seat passenger with
    | .error e => .error e
    | .ok f2 => f2.allocate_all rest

/-- The new-Boeing777 booking of the C6 analysis: route `EDB -> LCY`,
which the Boeing777 table does not contain but the AirbusA319 table
does. -/
def bookingAliceB777 : Booking :=
  { name := "Alice", dept := "EDB", dest := "LCY", number := "BA100",
    aircraft := "Boeing777", reg := "G-ABCD" }

/-- A second Boeing777 booking for the C6 analysis: route `LHR -> BFS`,
which the Boeing777 table contains but the AirbusA319 table does not. -/
def bookingCarolB777 : Booking :=
  { name := "Carol", dept := "LHR", dest := "BFS", number := "BB200",
    aircraft := "Boeing777", reg := "G-2" }

/-- The unrecognized-aircraft booking of the C8 analysis. -/
def bookingEveCessna : Booking :=
  { name := "Eve", dept := "EDB", dest := "LHR", number := "BB1",
    aircraft := "Cessna", reg := "G-X" }

/-- A freshly constructed narrow-body flight, used as concrete input by
several witnesses. -/
def freshBA100 : Flight :=
  { number := "BA100", dept := "EDB", dest := "LHR",
    aircraft := .airbusA319 "G-1", seating := fun _ _ => none }

/-- A narrow-body flight with every seat occupied, used as concrete
input for the capacity-exhaustion analysis. -/
def fullBA100 : Flight :=
  { number := "BA100", dept := "EDB", dest := "LHR",
    aircraft := .airbusA319 "G-1", seating := fun _ _ => some "P" }

/-- A booking for the full flight with a matching route. -/
def bookingQFull : Booking :=
  { name := "Q", dept := "EDB", dest := "LHR", number := "BA100",
    aircraft := "AirbusA319", reg := "G-1" }

/-- A flight holding Zed in 3A and Ann in 2B, the concrete boarding-card
example of the spec. -/
def zedAnnFlight : Flight :=
  { number := "BA100", dept := "EDB", dest := "LHR",
    aircraft := .airbusA319 "G-1",
    seating := fun r l =>
      if r = 3 ∧ l = 'A' then some "Zed"
      else if r = 2 ∧ l = 'B' then some "Ann"
      else none }

/-- Modelled from the spec: a flight number matching
`^[A-Z]{2}[0-9]{1,4}$` with numeric part at most 9999 (two uppercase
letters then one to four digits).  Used to compare the spec's stated
validity condition with the code's actual check. -/
def specValidFlightNumber (s : List Char) : Bool :=
  match s with
  | c1 :: c2 :: ds =>
    c1.isUpper && c2.isUpper && !ds.isEmpty && decide (ds.length ≤ 4) &&
      ds.all Char.isDigit && decide (digitsVal ds ≤ 9999)
  | _ => false

/-- Success of `Flight.init` is exactly the conjunction of the three
checks of the source. -/
theorem flight_init_isOk_iff (number dept dest : String) (a : Aircraft) :
    (∃ f, Flight.init number dept dest a = .ok f) ↔
      (pyIsAlpha (number.toList.take 2) ∧ pyIsUpper (number.toList.take 2) ∧
        pyIsDigit (number.toList.drop 2) ∧ digitsVal (number.toList.drop 2) ≤ 9999) := by
  unfold Flight.init
  split_ifs with h1 h2 h3
  · constructor
    · intro _; exact ⟨h1, h2, h3.1, h3.2⟩
    · intro _; exact ⟨_, rfl⟩
  · constructor
    · rintro ⟨f, hf⟩; simp at hf
    · intro h; exact absurd ⟨h.2.2.1, h.2.2.2⟩ h3
  · constructor
    · rintro ⟨f, hf⟩; simp at hf
    · intro h; exact absurd h.2.1 h2
  · constructor
    · rintro ⟨f, hf⟩; simp at hf
    · intro h; exact absurd h.1 h1

/-- A fresh flight produced by `Flight.init` is the record with the given
fields and an all-unoccupied grid. -/
theorem flight_init_ok (number dept dest : String) (a : Aircraft) (f : Flight)
    (h : Flight.init number dept dest a = .ok f) :
    f = { number := number, dept := dept, dest := dest, aircraft := a,
          seating := fun _ _ => none } := by
  unfold Flight.init at h
  split_ifs at h
  exact (Except.ok.injEq _ _ ▸ h).symm

/-- C1 (counterexample): the string `AB00001` has five digits after the
airline code, so it does not match the spec's pattern of one to four
digits, yet `Flight.__init__` accepts it (its five digits are a numeral
for 1, which is at most 9999).  The claimed exact characterization of
construction success is therefore false at this input. -/
theorem c1_counterexample_AB00001 :
    (Flight.init "AB00001" "EDB" "LHR" (.airbusA319 "G-1")).toOption.isSome = true ∧
      specValidFlightNumber "AB00001".toList = false := by
  constructor
  · rfl
  · rfl

/-- An uppercase character is a letter. -/
theorem isAlpha_of_isUpper {c : Char} (h : c.isUpper = true) : c.isAlpha = true := by
  simp [Char.isAlpha, h]

/-- `isalpha` on a two-character string. -/
theorem pyIsAlpha_pair (c1 c2 : Char) :
    pyIsAlpha [c1, c2] = true ↔ (c1.isAlpha = true ∧ c2.isAlpha = true) := by
  simp [pyIsAlpha]

/-- `isupper` on a two-character string: some cased character, and every
cased character uppercase. -/
theorem pyIsUpper_pair (c1 c2 : Char) :
    pyIsUpper [c1, c2] = true ↔
      ((c1.isAlpha = true ∨ c2.isAlpha = true) ∧
        (c1.isAlpha = true → c1.isUpper = true) ∧
        (c2.isAlpha = true → c2.isUpper = true)) := by
  simp only [pyIsUpper, List.any_cons, List.any_nil, List.all_cons, List.all_nil,
    Bool.or_false, Bool.and_true, Bool.and_eq_true, Bool.or_eq_true,
    Bool.not_eq_true']
  constructor
  · rintro ⟨hany, h1, h2⟩
    refine ⟨hany, ?_, ?_⟩
    · intro ha
      rcases h1 with h | h
      · rw [ha] at h; cases h
      · exact h
    · intro ha
      rcases h2 with h | h
      · rw [ha] at h; cases h
      · exact h
  · rintro ⟨hany, h1, h2⟩
    refine ⟨hany, ?_, ?_⟩
    · by_cases ha : c1.isAlpha = true
      · exact Or.inr (h1 ha)
      · exact Or.inl (Bool.not_eq_true _ ▸ ha)
    · by_cases ha : c2.isAlpha = true
      · exact Or.inr (h2 ha)
      · exact Or.inl (Bool.not_eq_true _ ▸ ha)

/-- `isdigit` as nonemptiness plus all-digits. -/
theorem pyIsDigit_iff (l : List Char) :
    pyIsDigit l = true ↔ (l ≠ [] ∧ ∀ c ∈ l, c.isDigit = true) := by
  simp [pyIsDigit]

/-- C1 (amended): construction succeeds exactly for flight numbers of
two uppercase ASCII letters followed by one or more digits whose numeric
value is at most 9999 (any number of digits, so leading zeros beyond
four digits are accepted); every other string is rejected with a
`FormatError`. -/
theorem c1_flight_number_amended (number dept dest : String) (a : Aircraft) :
    (∃ f, Flight.init number dept dest a = .ok f) ↔
      (∃ c1 c2 ds, number.toList = c1 :: c2 :: ds ∧ c1.isUpper ∧ c2.isUpper ∧
        ds ≠ [] ∧ ds.all Char.isDigit ∧ digitsVal ds ≤ 9999) := by
  rw [flight_init_isOk_iff]
  rcases hl : number.toList with _ | ⟨c1, rest⟩
  · simp [hl, pyIsAlpha]
  · rcases rest with _ | ⟨c2, ds⟩
    · have ht : List.take 2 [c1] = [c1] := rfl
      have hd : List.drop 2 [c1] = [] := rfl
      simp [hl, ht, hd, pyIsDigit]
    · have ht : List.take 2 (c1 :: c2 :: ds) = [c1, c2] := rfl
      have hd : List.drop 2 (c1 :: c2 :: ds) = ds := rfl
      rw [ht, hd]
      constructor
      · rintro ⟨ha, hup, hdig, hval⟩
        rw [pyIsAlpha_pair] at ha
        rw [pyIsUpper_pair] at hup
        rw [pyIsDigit_iff] at hdig
        exact ⟨c1, c2, ds, rfl, hup.2.1 ha.1, hup.2.2 ha.2, hdig.1,
          List.all_eq_true.mpr hdig.2, hval⟩
      · rintro ⟨c1', c2', ds', heq, hu1, hu2, hne, hdig, hval⟩
        injection heq with e1 heq2
        injection heq2 with e2 e3
        subst e1; subst e2; subst e3
        have ha1 := isAlpha_of_isUpper hu1
        have ha2 := isAlpha_of_isUpper hu2
        refine ⟨(pyIsAlpha_pair c1 c2).mpr ⟨ha1, ha2⟩,
          (pyIsUpper_pair c1 c2).mpr ⟨Or.inl ha1, fun _ => hu1, fun _ => hu2⟩,
          (pyIsDigit_iff ds).mpr ⟨hne, List.all_eq_true.mp hdig⟩, hval⟩

/-- C5: `flight_route` returns the `(dept, dest)` pair exactly when
`dest` is in the route table entry for `dept` (absent keys behaving as
an empty reachable set), and otherwise returns the `-1` sentinel rather
than raising; concretely on the narrow-body model `EDB -> LHR` is found
and `EDB -> BFS` is not. -/
theorem c5_flight_route (a : Aircraft) (dept dest reg : String) :
    (a.flight_route dept dest =
      if dest ∈ (a.available_routes.lookup dept).getD [] then .found dept dest
      else .notFound) ∧
    (Aircraft.airbusA319 reg).flight_route "EDB" "LHR" = .found "EDB" "LHR" ∧
    (Aircraft.airbusA319 reg).flight_route "EDB" "BFS" = .notFound := by
  refine ⟨?_, rfl, rfl⟩
  unfold Aircraft.flight_route
  cases hl : a.available_routes.lookup dept with
  | none => simp
  | some ds =>
    simp only [Option.getD_some]
    by_cases hmem : dest ∈ ds
    · rw [if_pos ⟨List.ne_nil_of_mem hmem, hmem⟩, if_pos hmem]
    · rw [if_neg (fun h => hmem h.2), if_neg hmem]

/-- C10: on the empty seat designator, `allocate_seat` fails with the
`IndexError` of `seat[-1]`, before any of the documented seat errors can
arise. -/
theorem c10_empty_designator (f : Flight) (passenger : String) :
    f.allocate_seat "" passenger = .error .indexError := rfl

/-- C6 (code bug): for a fresh Boeing777 booking the importer tests the
route on an `AirbusA319` instance, so the booking `EDB -> LCY` — a route
the Boeing777 table rejects (`flight_route` is the sentinel) — is
accepted and a Boeing 777 flight is created with Alice seated, where the
claim (and the spec's stated intent) requires validation against the
Boeing777 route table and hence rejection.  Conversely, `LHR -> BFS` is
in the Boeing777 table but not in the AirbusA319 table, and the booking
is dropped with no flight and no report, where the claim requires
acceptance. -/
theorem c6_boeing_route_check_bug :
    (Aircraft.boeing777 "G-ABCD").flight_route "EDB" "LCY" = .notFound ∧
    (create_flight_step [] bookingAliceB777).map
        (fun st => (st.1.map (fun p => p.2), st.1.map (fun p => p.1.aircraft_model),
                    st.1.map (fun p => p.1.passenger_seats), st.2))
      = .ok (["BA100"], ["Boeing 777"], [[("Alice", "1A")]], []) ∧
    (Aircraft.boeing777 "G-2").flight_route "LHR" "BFS" = .found "LHR" "BFS" ∧
    create_flight_step [] bookingCarolB777 = .ok ([], []) := by
  exact ⟨rfl, rfl, rfl, rfl⟩

/-- C8 (counterexample): a booking with aircraft type `Cessna` and a
flight number with no existing flight is not silently skipped: it falls
into the `else` arm, where `existing_flights.index(_number)` raises a
`ValueError` (the number is not in the list), an unhandled exception. -/
theorem c8_counterexample_cessna :
    create_flight_step [] bookingEveCessna = .error (.indexNotInList "BB1") := rfl

/-- The `index` model errors exactly when the number is absent. -/
theorem add_to_existing_not_mem (flights : List (Flight × String)) (b : Booking)
    (h : b.number ∉ flights.map (fun x => x.2)) :
    add_to_existing flights b = .error (.indexNotInList b.number) := by
  induction flights with
  | nil => rfl
  | cons p rest ih =>
    have hne : p.2 ≠ b.number := by
      intro he
      exact h (he ▸ List.mem_map_of_mem (fun x => x.2) (List.mem_cons_self p rest))
    have hrest : b.number ∉ rest.map (fun x => x.2) := by
      intro hm
      exact h (List.mem_cons_of_mem _ hm)
    cases p with
    | mk fl num =>
      unfold add_to_existing
      rw [if_neg hne, ih hrest]

/-- C8 (amended): for every booking whose aircraft type name is neither
`AirbusA319` nor `Boeing777` and whose flight number has no existing
flight, the importer raises an unhandled `ValueError` from
`existing_flights.index(_number)`; it creates no flight and allocates no
seat (the exception aborts the batch). -/
theorem c8_unrecognized_aircraft_amended (flights : List (Flight × String)) (b : Booking)
    (hnum : b.number ∉ flights.map (fun x => x.2))
    (hair1 : b.aircraft ≠ "AirbusA319") (hair2 : b.aircraft ≠ "Boeing777") :
    create_flight_step flights b = .error (.indexNotInList b.number) := by
  unfold create_flight_step
  rw [if_neg (fun h => hair1 h.2), if_neg (fun h => hair2 h.2)]
  exact add_to_existing_not_mem flights b hnum

/-- C8 witness: the amended behaviour at the concrete `Cessna` booking
against an empty flight list. -/
theorem c8_unrecognized_aircraft_amended_witness :
    create_flight_step [] bookingEveCessna = .error (.indexNotInList "BB1") ∧
      ("BB1" ∉ ([] : List (Flight × String)).map (fun x => x.2)) :=
  ⟨c8_unrecognized_aircraft_amended [] bookingEveCessna (by simp) (by decide) (by decide),
   by simp⟩

/-- One row of the seat generator, re-expressed over the row's cells. -/
theorem seatGen_row (s : Nat → Char → Option String) (r : Nat) (letters : List Char) :
    (letters.filterMap fun l =>
        match s r l with
        | none => some (designator r l)
        | some _ => none)
      = (((letters.map fun l => (r, l)).filter fun c => (s c.1 c.2).isNone).map
          fun c => designator c.1 c.2) := by
  induction letters with
  | nil => rfl
  | cons a t ih =>
    cases hs : s r a with
    | none => simp [List.filterMap_cons, List.filter_cons, hs, ih]
    | some p => simp [List.filterMap_cons, List.filter_cons, hs, ih]

/-- The full generator, over any row list. -/
theorem seatGen_general (s : Nat → Char → Option String) (letters : List Char) :
    ∀ rows : List Nat,
      (rows.flatMap fun r => letters.filterMap fun l =>
          match s r l with
          | none => some (designator r l)
          | some _ => none)
        = (((rows.flatMap fun r => letters.map fun l => (r, l)).filter
              fun c => (s c.1 c.2).isNone).map fun c => designator c.1 c.2) := by
  intro rows
  induction rows with
  | nil => rfl
  | cons r rest ih =>
    rw [List.flatMap_cons, List.flatMap_cons, List.filter_append, List.map_append,
      seatGen_row, ih]

/-- The seat generator is the designator image of the free cells. -/
theorem seat_generator_eq_freeCells (f : Flight) :
    f.seat_generator = f.freeCells.map fun c => designator c.1 c.2 :=
  seatGen_general f.seating f.aircraft.seating_plan.2 f.aircraft.seating_plan.1

/-- One row of `_passenger_seats`, re-expressed over the row's cells. -/
theorem passengerSeats_row (s : Nat → Char → Option String) (r : Nat) (letters : List Char) :
    (letters.filterMap fun l =>
        match s r l with
        | some passenger => some (passenger, designator r l)
        | none => none)
      = (((letters.map fun l => (r, l)).filter fun c => (s c.1 c.2).isSome).map
          fun c => ((s c.1 c.2).getD "", designator c.1 c.2)) := by
  induction letters with
  | nil => rfl
  | cons a t ih =>
    cases hs : s r a with
    | none => simp [List.filterMap_cons, List.filter_cons, hs, ih]
    | some p => simp [List.filterMap_cons, List.filter_cons, hs, ih]

/-- `_passenger_seats` over any row list. -/
theorem passengerSeats_general (s : Nat → Char → Option String) (letters : List Char) :
    ∀ rows : List Nat,
      (rows.flatMap fun r => letters.filterMap fun l =>
          match s r l with
          | some passenger => some (passenger, designator r l)
          | none => none)
        = (((rows.flatMap fun r => letters.map fun l => (r, l)).filter
              fun c => (s c.1 c.2).isSome).map
            fun c => ((s c.1 c.2).getD "", designator c.1 c.2)) := by
  intro rows
  induction rows with
  | nil => rfl
  | cons r rest ih =>
    rw [List.flatMap_cons, List.flatMap_cons, List.filter_append, List.map_append,
      passengerSeats_row, ih]

/-- `_passenger_seats` is the per-cell pair image of the occupied
cells. -/
theorem passenger_seats_eq_occupiedCells (f : Flight) :
    f.passenger_seats = f.occupiedCells.map
      fun c => ((f.seating c.1 c.2).getD "", designator c.1 c.2) :=
  passengerSeats_general f.seating f.aircraft.seating_plan.2 f.aircraft.seating_plan.1

/-- One row of the availability count, over the row's cells. -/
theorem numAvail_row (s : Nat → Char → Option String) (r : Nat) (letters : List Char) :
    ((letters.map fun l => (r, l)).filter fun c => (s c.1 c.2).isNone).length
      = (letters.filter fun l => (s r l).isNone).length := by
  induction letters with
  | nil => rfl
  | cons a t ih =>
    cases hs : s r a with
    | none => simp [List.filter_cons, hs, ih]
    | some p => simp [List.filter_cons, hs, ih]

/-- The availability count, over any row list. -/
theorem numAvail_general (s : Nat → Char → Option String) (letters : List Char) :
    ∀ rows : List Nat,
      ((rows.map fun row => (letters.filter fun l => (s row l).isNone).length).sum)
        = ((rows.flatMap fun r => letters.map fun l => (r, l)).filter
            fun c => (s c.1 c.2).isNone).length := by
  intro rows
  induction rows with
  | nil => rfl
  | cons r rest ih =>
    rw [List.map_cons, List.sum_cons, List.flatMap_cons, List.filter_append,
      List.length_append, numAvail_row, ih]

/-- The availability count is the number of free cells. -/
theorem num_available_eq_freeCells (f : Flight) :
    f.num_available_seats = f.freeCells.length :=
  numAvail_general f.seating f.aircraft.seating_plan.2 f.aircraft.seating_plan.1

/-- Membership in the plan's cell list. -/
theorem mem_planCells {a : Aircraft} {c : Nat × Char} :
    c ∈ planCells a ↔ (c.1 ∈ a.seating_plan.1 ∧ c.2 ∈ a.seating_plan.2) := by
  unfold planCells
  constructor
  · intro h
    rcases List.mem_flatMap.mp h with ⟨r, hr, hc⟩
    rcases List.mem_map.mp hc with ⟨l, hl, he⟩
    rw [← he]
    exact ⟨hr, hl⟩
  · rintro ⟨h1, h2⟩
    exact List.mem_flatMap.mpr ⟨c.1, h1, List.mem_map.mpr ⟨c.2, h2, rfl⟩⟩

/-- Both models have duplicate-free row ranges and letter sequences. -/
theorem plan_nodup (a : Aircraft) : a.seating_plan.1.Nodup ∧ a.seating_plan.2.Nodup := by
  cases a with
  | airbusA319 r =>
    exact ⟨List.nodup_range' 1 22, (by decide : ("ABCDEF".toList).Nodup)⟩
  | boeing777 r =>
    exact ⟨List.nodup_range' 1 55, (by decide : ("ABCDEFGHJK".toList).Nodup)⟩

/-- Rows are listed in strictly increasing order. -/
theorem plan_rows_lt (a : Aircraft) : List.Pairwise (· < ·) a.seating_plan.1 := by
  cases a with
  | airbusA319 r => exact List.pairwise_lt_range' 1 22
  | boeing777 r => exact List.pairwise_lt_range' 1 55

/-- Every row number of either plan is at most 55. -/
theorem plan_rows_le55 (a : Aircraft) : ∀ r ∈ a.seating_plan.1, r ≤ 55 := by
  cases a with
  | airbusA319 reg =>
    intro r hr
    have := List.mem_range'_1.mp hr
    omega
  | boeing777 reg =>
    intro r hr
    have := List.mem_range'_1.mp hr
    omega

/-- Letters are listed in strictly increasing column-index order. -/
theorem plan_letters_idx (a : Aircraft) :
    List.Pairwise (fun l1 l2 =>
      a.seating_plan.2.indexOf l1 < a.seating_plan.2.indexOf l2) a.seating_plan.2 := by
  cases a with
  | airbusA319 r =>
    exact (by decide : List.Pairwise (fun l1 l2 =>
      ("ABCDEF".toList).indexOf l1 < ("ABCDEF".toList).indexOf l2) "ABCDEF".toList)
  | boeing777 r =>
    exact (by decide : List.Pairwise (fun l1 l2 =>
      ("ABCDEFGHJK".toList).indexOf l1 < ("ABCDEFGHJK".toList).indexOf l2) "ABCDEFGHJK".toList)

/-- The plan's cell list is strictly increasing in `(row, column index)`
order. -/
theorem planCells_pairwise (a : Aircraft) :
    List.Pairwise (cellLt a) (planCells a) := by
  unfold planCells
  rw [List.pairwise_flatMap]
  constructor
  · intro r _
    rw [List.pairwise_map]
    exact (plan_letters_idx a).imp fun h => Or.inr ⟨rfl, h⟩
  · apply (plan_rows_lt a).imp
    intro r1 r2 hlt x hx y hy
    rcases List.mem_map.mp hx with ⟨l1, _, he1⟩
    rcases List.mem_map.mp hy with ⟨l2, _, he2⟩
    rw [← he1, ← he2]
    exact Or.inl hlt

/-- `cellLt` is irreflexive. -/
theorem cellLt_irrefl (a : Aircraft) (c : Nat × Char) : ¬ cellLt a c c := by
  rintro (h | ⟨_, h⟩)
  · exact lt_irrefl _ h
  · exact lt_irrefl _ h

/-- The plan's cell list has no duplicates. -/
theorem planCells_nodup (a : Aircraft) : (planCells a).Nodup := by
  apply (planCells_pairwise a).imp
  intro c d h he
  exact cellLt_irrefl a d (he ▸ h)

/-- Decimal representations are distinct for distinct numbers up to 55
(the largest row number of either plan). -/
theorem toString_inj_le55 :
    ∀ r1 ∈ List.range 56, ∀ r2 ∈ List.range 56, toString r1 = toString r2 → r1 = r2 := by
  decide

/-- Lists that agree after appending one element agree. -/
theorem append_singleton_inj {α : Type} {l1 l2 : List α} {a b : α}
    (h : l1 ++ [a] = l2 ++ [b]) : l1 = l2 ∧ a = b := by
  have := List.append_inj' h rfl
  exact ⟨this.1, List.cons.injEq .. ▸ this.2 |>.1⟩

/-- On rows up to 55, seat designators are injective: equal designator
strings come from the same row and letter. -/
theorem designator_inj {r1 r2 : Nat} {l1 l2 : Char}
    (h1 : r1 ≤ 55) (h2 : r2 ≤ 55)
    (he : designator r1 l1 = designator r2 l2) : r1 = r2 ∧ l1 = l2 := by
  unfold designator at he
  have hd := congrArg String.data he
  rw [String.data_append, String.data_append] at hd
  have hsplit := append_singleton_inj hd
  refine ⟨?_, hsplit.2⟩
  exact toString_inj_le55 r1 (List.mem_range.mpr (by omega)) r2 (List.mem_range.mpr (by omega))
    (String.ext hsplit.1)

/-- `allocate_seat` with the local bindings of the source expanded. -/
theorem allocate_seat_def (f : Flight) (seat passenger : String) :
    f.allocate_seat seat passenger =
      (match seat.toList.getLast? with
      | none => .error .indexError
      | some letter =>
        if letter ∉ f.aircraft.seating_plan.2 then .error (.invalidSeatLetter letter)
        else
          match pyInt seat.toList.dropLast with
          | none => .error (.invalidSeatRow (String.mk seat.toList.dropLast))
          | some row =>
            if ∀ r ∈ f.aircraft.seating_plan.1, (r : Int) ≠ row then
              .error (.rowOutOfRange row)
            else if (f.seating row.toNat letter).isSome then .error (.seatOccupied seat)
            else .ok { f with
              seating := fun r l =>
                if r = row.toNat ∧ l = letter then some passenger
                else f.seating r l }) := rfl

/-- Inversion of a successful `allocate_seat`: the designator parsed to
a plan letter and an in-range row, the cell was free, and the result is
the same flight with exactly that cell written. -/
theorem allocate_seat_ok_inv {f : Flight} {seat passenger : String} {f2 : Flight}
    (h : f.allocate_seat seat passenger = .ok f2) :
    ∃ letter row, seat.toList.getLast? = some letter ∧
      pyInt seat.toList.dropLast = some row ∧
      letter ∈ f.aircraft.seating_plan.2 ∧
      row.toNat ∈ f.aircraft.seating_plan.1 ∧
      f.seating row.toNat letter = none ∧
      f2 = { f with seating := fun r l =>
        if r = row.toNat ∧ l = letter then some passenger else f.seating r l } := by
  rw [allocate_seat_def] at h
  rcases hg : seat.toList.getLast? with _ | letter
  · simp only [hg] at h
    exact absurd h (by simp)
  · simp only [hg] at h
    by_cases hlet : letter ∈ f.aircraft.seating_plan.2
    · rw [if_neg (not_not.mpr hlet)] at h
      rcases hrow : pyInt seat.toList.dropLast with _ | row
      · simp only [hrow] at h
        exact absurd h (by simp)
      · simp only [hrow] at h
        by_cases hall : ∀ r ∈ f.aircraft.seating_plan.1, (r : Int) ≠ row
        · rw [if_pos hall] at h; exact absurd h (by simp)
        · rw [if_neg hall] at h
          by_cases hocc : (f.seating row.toNat letter).isSome = true
          · rw [if_pos hocc] at h; exact absurd h (by simp)
          · rw [if_neg hocc] at h
            push_neg at hall
            rcases hall with ⟨r, hr, hre⟩
            have hrn : row.toNat = r := by rw [← hre, Int.toNat_ofNat]
            refine ⟨letter, row, rfl, rfl, hlet, hrn ▸ hr,
              Option.not_isSome_iff_eq_none.mp hocc, ?_⟩
            injection h with h2
            exact h2.symm
    · rw [if_pos hlet] at h; exact absurd h (by simp)

/-- Removing one element from a filter: if `q` agrees with `p` except at
one listed element where `p` holds and `q` does not, the `q`-filter is
one shorter. -/
theorem filter_length_update {α : Type} [DecidableEq α] (l : List α) (p q : α → Bool)
    (x : α) (hnd : l.Nodup) (hx : x ∈ l) (hpx : p x = true) (hqx : q x = false)
    (hagree : ∀ y, y ≠ x → q y = p y) :
    (l.filter q).length + 1 = (l.filter p).length := by
  induction l with
  | nil => cases hx
  | cons a t ih =>
    rcases List.mem_cons.mp hx with hxe | hxt
    · subst hxe
      have hxt : x ∉ t := (List.nodup_cons.mp hnd).1
      have heq : t.filter q = t.filter p :=
        List.filter_congr (fun y hy => hagree y (fun he => hxt (he ▸ hy)))
      simp [List.filter_cons, hpx, hqx, heq]
    · have hax : a ≠ x := fun he => (List.nodup_cons.mp hnd).1 (he ▸ hxt)
      have hq : q a = p a := hagree a hax
      have ht := ih (List.nodup_cons.mp hnd).2 hxt
      cases hpa : p a with
      | true => simp [List.filter_cons, hpa, hq.trans hpa, ht]
      | false => simp [List.filter_cons, hpa, hq.trans hpa, ht]

/-- A successful allocation keeps the aircraft and decrements the free
cell count by exactly one. -/
theorem allocate_seat_freeCells {f f2 : Flight} {seat passenger : String}
    (h : f.allocate_seat seat passenger = .ok f2) :
    f2.aircraft = f.aircraft ∧ f2.freeCells.length + 1 = f.freeCells.length := by
  obtain ⟨letter, row, hg, hrow, hlet, hmem, hfree, hf2⟩ := allocate_seat_ok_inv h
  subst hf2
  refine ⟨rfl, ?_⟩
  unfold Flight.freeCells
  exact filter_length_update (planCells f.aircraft) _ _ (row.toNat, letter)
    (planCells_nodup f.aircraft)
    (mem_planCells.mpr ⟨hmem, hlet⟩)
    (by simp [hfree])
    (by simp)
    (by
      rintro ⟨r, l⟩ hy
      simp only []
      rw [if_neg]
      rintro ⟨he1, he2⟩
      exact hy (by rw [he1, he2]))

/-- A successful run of `allocate_all` keeps the aircraft and decrements
the free cell count by the number of calls. -/
theorem allocate_all_freeCells :
    ∀ (calls : List (String × String)) (f f2 : Flight),
      f.allocate_all calls = .ok f2 →
      f2.aircraft = f.aircraft ∧ f2.freeCells.length + calls.length = f.freeCells.length := by
  intro calls
  induction calls with
  | nil =>
    intro f f2 h
    injection h with h2
    subst h2
    exact ⟨rfl, rfl⟩
  | cons c rest ih =>
    intro f f2 h
    unfold Flight.allocate_all at h
    split at h
    · exact absurd h (by simp)
    next f1 hstep =>
      obtain ⟨ha1, hl1⟩ := allocate_seat_freeCells hstep
      obtain ⟨ha2, hl2⟩ := ih f1 f2 h
      refine ⟨ha2.trans ha1, ?_⟩
      rw [List.length_cons]
      omega

/-- C2: on a non-empty designator, `allocate_seat` fails with
`InvalidSeatLetter` when the trailing character is not a plan letter;
otherwise with `InvalidSeatRow` when the remaining text does not parse
as an integer; otherwise with `RowOutOfRange` when the parsed row is not
a plan row; otherwise with `SeatOccupied` when the cell is taken; and
otherwise succeeds, writing exactly that cell to the passenger name. -/
theorem c2_allocate_seat_cases (f : Flight) (seat passenger : String) (letter : Char)
    (hlast : seat.toList.getLast? = some letter) :
    ((letter ∉ f.aircraft.seating_plan.2 →
        f.allocate_seat seat passenger = .error (.invalidSeatLetter letter)) ∧
     (letter ∈ f.aircraft.seating_plan.2 → pyInt seat.toList.dropLast = none →
        f.allocate_seat seat passenger
          = .error (.invalidSeatRow (String.mk seat.toList.dropLast))) ∧
     (∀ row : Int, letter ∈ f.aircraft.seating_plan.2 →
        pyInt seat.toList.dropLast = some row →
        (∀ r ∈ f.aircraft.seating_plan.1, (r : Int) ≠ row) →
        f.allocate_seat seat passenger = .error (.rowOutOfRange row)) ∧
     (∀ row : Int, ∀ q : String, letter ∈ f.aircraft.seating_plan.2 →
        pyInt seat.toList.dropLast = some row →
        (∃ r ∈ f.aircraft.seating_plan.1, (r : Int) = row) →
        f.seating row.toNat letter = some q →
        f.allocate_seat seat passenger = .error (.seatOccupied seat)) ∧
     (∀ row : Int, letter ∈ f.aircraft.seating_plan.2 →
        pyInt seat.toList.dropLast = some row →
        (∃ r ∈ f.aircraft.seating_plan.1, (r : Int) = row) →
        f.seating row.toNat letter = none →
        ∃ f2, f.allocate_seat seat passenger = .ok f2 ∧
          f2.seating row.toNat letter = some passenger ∧
          (∀ r l, ¬(r = row.toNat ∧ l = letter) → f2.seating r l = f.seating r l) ∧
          f2.number = f.number ∧ f2.dept = f.dept ∧ f2.dest = f.dest ∧
          f2.aircraft = f.aircraft)) := by
  have hdef := allocate_seat_def f seat passenger
  simp only [hlast] at hdef
  refine ⟨?_, ?_, ?_, ?_, ?_⟩
  · intro hout
    rw [hdef, if_pos hout]
  · intro hin hnone
    rw [hdef, if_neg (not_not.mpr hin)]
    simp only [hnone]
  · intro row hin hsome hall
    rw [hdef, if_neg (not_not.mpr hin)]
    simp only [hsome]
    rw [if_pos hall]
  · rintro row q hin hsome ⟨r, hr, hre⟩ hocc
    rw [hdef, if_neg (not_not.mpr hin)]
    simp only [hsome]
    rw [if_neg (by push_neg; exact ⟨r, hr, hre⟩), if_pos (by rw [hocc]; rfl)]
  · rintro row hin hsome ⟨r, hr, hre⟩ hfree
    refine ⟨{ f with seating := fun r2 l2 =>
        if r2 = row.toNat ∧ l2 = letter then some passenger else f.seating r2 l2 },
      ?_, ?_, ?_, rfl, rfl, rfl, rfl⟩
    · rw [hdef, if_neg (not_not.mpr hin)]
      simp only [hsome]
      rw [if_neg (by push_neg; exact ⟨r, hr, hre⟩), if_neg (by rw [hfree]; simp)]
    · show (if row.toNat = row.toNat ∧ letter = letter then some passenger
          else f.seating row.toNat letter) = some passenger
      exact if_pos ⟨rfl, rfl⟩
    · intro r2 l2 hne
      show (if r2 = row.toNat ∧ l2 = letter then some passenger
          else f.seating r2 l2) = f.seating r2 l2
      exact if_neg hne

/-- C2 witness: the success case at a concrete fresh flight and the
designator `2B`. -/
theorem c2_allocate_seat_cases_witness :
    ∃ f2, freshBA100.allocate_seat "2B" "Alice" = .ok f2 ∧
      f2.seating 2 'B' = some "Alice" := by
  have h := c2_allocate_seat_cases freshBA100 "2B" "Alice" 'B' rfl
  obtain ⟨f2, hok, hcell, -⟩ :=
    h.2.2.2.2 2 (by decide) rfl ⟨2, by decide, rfl⟩ rfl
  exact ⟨f2, hok, hcell⟩

/-- C3: the seat generator yields exactly the designators of the free
cells of the plan, each cell at most once (the designator list itself is
duplicate-free), in strictly increasing `(row, column index)` order, and
an allocation performed between two calls is reflected: the newly
occupied cell is in the earlier sequence and not in the later one. -/
theorem c3_seat_generator_spec (f : Flight) :
    f.seat_generator = (f.freeCells.map fun c => designator c.1 c.2) ∧
    (∀ c, c ∈ f.freeCells ↔ (c ∈ planCells f.aircraft ∧ f.seating c.1 c.2 = none)) ∧
    f.freeCells.Nodup ∧
    List.Pairwise (cellLt f.aircraft) f.freeCells ∧
    f.seat_generator.Nodup ∧
    (∀ seat passenger f2, f.allocate_seat seat passenger = .ok f2 →
      ∃ r l, f2.seating r l = some passenger ∧
        (r, l) ∈ f.freeCells ∧ (r, l) ∉ f2.freeCells ∧
        designator r l ∈ f.seat_generator ∧ designator r l ∉ f2.seat_generator) := by
  have hmemfree : ∀ c, c ∈ f.freeCells ↔
      (c ∈ planCells f.aircraft ∧ f.seating c.1 c.2 = none) := by
    intro c
    unfold Flight.freeCells
    rw [List.mem_filter, Option.isNone_iff_eq_none]
  have hnodup : f.freeCells.Nodup :=
    (planCells_nodup f.aircraft).filter _
  have hbound : ∀ c ∈ f.freeCells, c.1 ≤ 55 := by
    intro c hc
    exact plan_rows_le55 f.aircraft c.1 (mem_planCells.mp ((hmemfree c).mp hc).1).1
  have hgnodup : f.seat_generator.Nodup := by
    rw [seat_generator_eq_freeCells]
    refine List.Nodup.map_on ?_ hnodup
    intro x hx y hy he
    have hb1 := hbound x hx
    have hb2 := hbound y hy
    rcases x with ⟨xr, xl⟩
    rcases y with ⟨yr, yl⟩
    rw [Prod.mk.injEq]
    exact designator_inj hb1 hb2 he
  refine ⟨seat_generator_eq_freeCells f, hmemfree, hnodup,
    List.Pairwise.sublist (List.filter_sublist _) (planCells_pairwise f.aircraft),
    hgnodup, ?_⟩
  intro seat passenger f2 h
  obtain ⟨letter, row, hg, hrow, hlet, hmem, hfree, hf2⟩ := allocate_seat_ok_inv h
  have hcellin : (row.toNat, letter) ∈ f.freeCells :=
    (hmemfree (row.toNat, letter)).mpr ⟨mem_planCells.mpr ⟨hmem, hlet⟩, hfree⟩
  have hair : f2.aircraft = f.aircraft := by rw [hf2]
  have hcellout : (row.toNat, letter) ∉ f2.freeCells := by
    intro hc
    have := (List.mem_filter.mp hc).2
    rw [hf2] at this
    simp at this
  refine ⟨row.toNat, letter, ?_, hcellin, hcellout, ?_, ?_⟩
  · rw [hf2]
    show (if row.toNat = row.toNat ∧ letter = letter then some passenger
        else f.seating row.toNat letter) = some passenger
    exact if_pos ⟨rfl, rfl⟩
  · rw [seat_generator_eq_freeCells]
    exact List.mem_map.mpr ⟨(row.toNat, letter), hcellin, rfl⟩
  · intro hmem2
    rw [seat_generator_eq_freeCells] at hmem2
    obtain ⟨c, hc, hce⟩ := List.mem_map.mp hmem2
    have hcb : c.1 ≤ 55 := by
      have hplan := (List.mem_filter.mp hc).1
      rw [hair] at hplan
      exact plan_rows_le55 f.aircraft c.1 (mem_planCells.mp hplan).1
    have hrb : row.toNat ≤ 55 :=
      plan_rows_le55 f.aircraft row.toNat hmem
    have hceq : c = (row.toNat, letter) := by
      rcases c with ⟨cr, cl⟩
      rw [Prod.mk.injEq]
      exact designator_inj hcb hrb hce
    exact hcellout (hceq ▸ hc)

/-- C3 witness: a concrete allocation on the fresh flight is reflected
in the next generator sequence. -/
theorem c3_seat_generator_spec_witness :
    ∃ f2, freshBA100.allocate_seat "1A" "Alice" = .ok f2 ∧
      ∃ r l, f2.seating r l = some "Alice" ∧
        (r, l) ∈ freshBA100.freeCells ∧ (r, l) ∉ f2.freeCells ∧
        designator r l ∈ freshBA100.seat_generator ∧
        designator r l ∉ f2.seat_generator := by
  cases hok : freshBA100.allocate_seat "1A" "Alice" with
  | error e =>
    have hchk : (freshBA100.allocate_seat "1A" "Alice").toOption.isSome = true := by decide
    rw [hok] at hchk
    simp [Except.toOption] at hchk
  | ok f2 =>
    exact ⟨f2, rfl,
      (c3_seat_generator_spec freshBA100).2.2.2.2.2 "1A" "Alice" f2 hok⟩

/-- `planCells` has `rows * columns` entries. -/
theorem planCells_length (a : Aircraft) : (planCells a).length = a.num_seats := by
  unfold planCells Aircraft.num_seats
  induction a.seating_plan.1 with
  | nil => simp
  | cons r rest ih =>
    rw [List.flatMap_cons, List.length_append, List.length_map, List.length_cons, ih,
      Nat.succ_mul]
    omega

/-- A grid with every cell unoccupied has all plan cells free. -/
theorem freeCells_of_all_none {f : Flight} (h : ∀ r l, f.seating r l = none) :
    f.freeCells = planCells f.aircraft := by
  unfold Flight.freeCells
  apply List.filter_eq_self.mpr
  intro c _
  rw [h c.1 c.2]
  rfl

/-- C4: a freshly constructed flight has `rows * columns` available
seats with every cell unoccupied, and after `N` successful allocations
on distinct designators it has `numSeats - N`. -/
theorem c4_num_available_seats (number dept dest : String) (a : Aircraft)
    (f0 f2 : Flight) (calls : List (String × String))
    (hinit : Flight.init number dept dest a = .ok f0)
    (_hdistinct : (calls.map Prod.fst).Nodup)
    (hall : f0.allocate_all calls = .ok f2) :
    f0.num_available_seats = a.num_seats ∧
    (∀ r l, f0.seating r l = none) ∧
    f2.num_available_seats = a.num_seats - calls.length := by
  have hf0 := flight_init_ok number dept dest a f0 hinit
  have hnone : ∀ r l, f0.seating r l = none := by
    intro r l
    rw [hf0]
  have hair : f0.aircraft = a := by rw [hf0]
  have h0 : f0.num_available_seats = a.num_seats := by
    rw [num_available_eq_freeCells, freeCells_of_all_none hnone, hair, planCells_length]
  obtain ⟨-, hlen⟩ := allocate_all_freeCells calls f0 f2 hall
  have hfree0 : f0.freeCells.length = a.num_seats := by
    rw [freeCells_of_all_none hnone, hair, planCells_length]
  refine ⟨h0, hnone, ?_⟩
  rw [num_available_eq_freeCells]
  omega

/-- C4 witness: two allocations on a fresh narrow-body flight leave
130 of the 132 seats available. -/
theorem c4_num_available_seats_witness :
    ∃ f0 f2,
      Flight.init "BA100" "EDB" "LHR" (.airbusA319 "G-1") = .ok f0 ∧
      f0.allocate_all [("1A", "Alice"), ("2B", "Bob")] = .ok f2 ∧
      f2.num_available_seats = (Aircraft.airbusA319 "G-1").num_seats - 2 := by
  have hinit : Flight.init "BA100" "EDB" "LHR" (.airbusA319 "G-1") = .ok freshBA100 := rfl
  cases hall : freshBA100.allocate_all [("1A", "Alice"), ("2B", "Bob")] with
  | error e =>
    have hchk : (freshBA100.allocate_all [("1A", "Alice"), ("2B", "Bob")]).toOption.isSome
        = true := by decide
    rw [hall] at hchk
    simp [Except.toOption] at hchk
  | ok f2 =>
    have h := c4_num_available_seats "BA100" "EDB" "LHR" (.airbusA319 "G-1")
      freshBA100 f2 [("1A", "Alice"), ("2B", "Bob")] hinit (by decide) hall
    exact ⟨freshBA100, f2, hinit, hall, h.2.2⟩

/-- C7 (code bug): when a booking reaches an existing flight with a
matching route and no free seat, the importer's
`_seat_generator().__next__()` raises `StopIteration`, and the loop lets
it escape unhandled — there is no `SeatCapacityExhausted` report. -/
theorem c7_capacity_stopIteration (b : Booking) (fl : Flight)
    (rest : List (Flight × String))
    (hroute : fl.flight_route = .found b.dept b.dest)
    (hfull : fl.num_available_seats = 0) :
    create_flight_step ((fl, b.number) :: rest) b = .error .stopIteration := by
  have hgen : fl.seat_generator = [] := by
    have h1 := seat_generator_eq_freeCells fl
    have h2 := num_available_eq_freeCells fl
    rw [hfull] at h2
    rw [h1, List.length_eq_zero.mp h2.symm]
    rfl
  have hmem : b.number ∈ ((fl, b.number) :: rest).map (fun x => x.2) := by simp
  unfold create_flight_step
  rw [if_neg (fun hc => hc.1 hmem), if_neg (fun hc => hc.1 hmem)]
  unfold add_to_existing
  rw [if_pos rfl, if_pos hroute]
  simp only [hgen]

/-- C7 witness: the concrete full flight with a matching booking. -/
theorem c7_capacity_stopIteration_witness :
    create_flight_step [(fullBA100, "BA100")] bookingQFull = .error .stopIteration ∧
      fullBA100.num_available_seats = 0 :=
  ⟨c7_capacity_stopIteration bookingQFull fullBA100 [] rfl rfl, rfl⟩

/-- The strict code-point order is irrelevant on equal lists and total:
two lists are ordered one way, the other way, or equal. -/
theorem listLtB_trichotomy : ∀ a b : List Char,
    listLtB a b = true ∨ listLtB b a = true ∨ a = b := by
  intro a
  induction a with
  | nil =>
    intro b
    cases b with
    | nil => exact Or.inr (Or.inr rfl)
    | cons bh bt => exact Or.inl rfl
  | cons ah tlA ih =>
    intro b
    cases b with
    | nil => exact Or.inr (Or.inl rfl)
    | cons bh bt =>
      by_cases h1 : ah.toNat < bh.toNat
      · exact Or.inl (by simp [listLtB, h1])
      · by_cases h2 : bh.toNat < ah.toNat
        · exact Or.inr (Or.inl (by simp [listLtB, h2]))
        · have hnat : ah.toNat = bh.toNat := by omega
          have hhe : ah = bh := by
            have h3 : Char.ofNat ah.toNat = Char.ofNat bh.toNat := by rw [hnat]
            rwa [Char.ofNat_toNat, Char.ofNat_toNat] at h3
          subst hhe
          rcases ih bt with h | h | h
          · exact Or.inl (by simp [listLtB, h])
          · exact Or.inr (Or.inl (by simp [listLtB, h]))
          · exact Or.inr (Or.inr (by rw [h]))

/-- Transitivity of the strict code-point order. -/
theorem listLtB_trans : ∀ a b c : List Char,
    listLtB a b = true → listLtB b c = true → listLtB a c = true := by
  intro a
  induction a with
  | nil =>
    intro b c h1 h2
    cases b with
    | nil => simp [listLtB] at h1
    | cons bh bt =>
      cases c with
      | nil => simp [listLtB] at h2
      | cons ch ct => rfl
  | cons ah tlA ih =>
    intro b c h1 h2
    cases b with
    | nil => simp [listLtB] at h1
    | cons bh bt =>
      cases c with
      | nil => simp [listLtB] at h2
      | cons ch ct =>
        simp only [listLtB] at h1 h2 ⊢
        split_ifs at h1 h2 ⊢ <;>
          first
            | rfl
            | omega
            | exact ih bt ct h1 h2

/-- Reflexivity of the non-strict code-point order. -/
theorem listLeB_refl : ∀ l : List Char, listLeB l l = true := by
  intro l
  induction l with
  | nil => rfl
  | cons a t ih => simp [listLeB, ih]

/-- The strict order implies the non-strict one. -/
theorem listLtB_le : ∀ a b : List Char, listLtB a b = true → listLeB a b = true := by
  intro a
  induction a with
  | nil => intro b h; cases b <;> rfl
  | cons ah tlA ih =>
    intro b h
    cases b with
    | nil => simp [listLtB] at h
    | cons bh bt =>
      simp only [listLtB] at h
      simp only [listLeB]
      split_ifs at h ⊢ <;>
        first
          | rfl
          | omega
          | exact ih bt h

/-- Transitivity of the non-strict code-point order. -/
theorem listLeB_trans : ∀ a b c : List Char,
    listLeB a b = true → listLeB b c = true → listLeB a c = true := by
  intro a
  induction a with
  | nil => intro b c _ _; rfl
  | cons ah tlA ih =>
    intro b c h1 h2
    cases b with
    | nil => simp [listLeB] at h1
    | cons bh bt =>
      cases c with
      | nil => simp [listLeB] at h2
      | cons ch ct =>
        simp only [listLeB] at h1 h2 ⊢
        split_ifs at h1 h2 ⊢ <;>
          first
            | rfl
            | omega
            | exact ih bt ct h1 h2

/-- Totality of the non-strict code-point order. -/
theorem listLeB_total : ∀ a b : List Char,
    listLeB a b = true ∨ listLeB b a = true := by
  intro a b
  rcases listLtB_trichotomy a b with h | h | h
  · exact Or.inl (listLtB_le a b h)
  · exact Or.inr (listLtB_le b a h)
  · exact Or.inl (h ▸ listLeB_refl a)

/-- The Python tuple order is total. -/
theorem pairLe_total : ∀ a b : String × String, pairLe a b ∨ pairLe b a := by
  intro a b
  unfold pairLe
  rcases listLtB_trichotomy a.1.toList b.1.toList with h | h | h
  · refine Or.inl ?_
    rw [Bool.or_eq_true]
    exact Or.inl h
  · refine Or.inr ?_
    rw [Bool.or_eq_true]
    exact Or.inl h
  · have he : a.1 = b.1 := String.ext h
    rcases listLeB_total a.2.toList b.2.toList with h2 | h2
    · refine Or.inl ?_
      rw [Bool.or_eq_true, Bool.and_eq_true, beq_iff_eq]
      exact Or.inr ⟨he, h2⟩
    · refine Or.inr ?_
      rw [Bool.or_eq_true, Bool.and_eq_true, beq_iff_eq]
      exact Or.inr ⟨he.symm, h2⟩

/-- The Python tuple order is transitive. -/
theorem pairLe_trans : ∀ a b c : String × String,
    pairLe a b → pairLe b c → pairLe a c := by
  intro a b c h1 h2
  unfold pairLe at h1 h2 ⊢
  rw [Bool.or_eq_true, Bool.and_eq_true] at h1 h2 ⊢
  rcases h1 with h1 | ⟨h1e, h1s⟩ <;> rcases h2 with h2 | ⟨h2e, h2s⟩
  · exact Or.inl (listLtB_trans _ _ _ h1 h2)
  · exact Or.inl (by rw [beq_iff_eq] at h2e; rw [← h2e]; exact h1)
  · exact Or.inl (by rw [beq_iff_eq] at h1e; rw [h1e]; exact h2)
  · rw [beq_iff_eq] at h1e h2e
    refine Or.inr ⟨by rw [beq_iff_eq]; rw [h1e, h2e], ?_⟩
    exact listLeB_trans _ _ _ h1s h2s

/-- The tuple order is primarily the name order. -/
theorem pairLe_name_le {a b : String × String} (h : pairLe a b) :
    strLeB a.1 b.1 = true := by
  unfold pairLe at h
  rw [Bool.or_eq_true, Bool.and_eq_true] at h
  rcases h with h | ⟨he, -⟩
  · exact listLtB_le _ _ h
  · rw [beq_iff_eq] at he
    rw [he]
    exact listLeB_refl _

/-- C9: boarding cards are produced once per occupied cell — the call
list is a permutation of the per-occupied-cell cards carrying
`(passenger, designator, dept, dest, number, model)` — in passenger-name
order; concretely, with Zed in 3A and Ann in 2B, Ann's card comes
first.  The method reads but never writes the grid, so it is a pure
function of the flight. -/
theorem c9_make_boarding_cards (f : Flight) :
    f.make_boarding_cards.Perm (f.occupiedCells.map fun c =>
      { passenger := (f.seating c.1 c.2).getD "", seat := designator c.1 c.2,
        dept := f.dept, dest := f.dest, number := f.number,
        model := f.aircraft_model : BoardingCard }) ∧
    List.Pairwise (fun c1 c2 : BoardingCard => strLeB c1.passenger c2.passenger = true)
      f.make_boarding_cards ∧
    zedAnnFlight.make_boarding_cards =
      [{ passenger := "Ann", seat := "2B", dept := "EDB", dest := "LHR",
         number := "BA100", model := "Airbus A319" },
       { passenger := "Zed", seat := "3A", dept := "EDB", dest := "LHR",
         number := "BA100", model := "Airbus A319" }] := by
  refine ⟨?_, ?_, by rfl⟩
  · unfold Flight.make_boarding_cards
    refine (List.Perm.map _ (List.perm_insertionSort pairLe f.passenger_seats)).trans ?_
    rw [passenger_seats_eq_occupiedCells, List.map_map]
    exact List.Perm.refl _
  · unfold Flight.make_boarding_cards
    rw [List.pairwise_map]
    have hs : List.Pairwise pairLe (f.passenger_seats.insertionSort pairLe) :=
      @List.sorted_insertionSort _ pairLe _ ⟨pairLe_total⟩ ⟨pairLe_trans⟩ f.passenger_seats
    exact hs.imp fun hab => pairLe_name_le hab

end FlightBooking
